import Mathlib

set_option maxHeartbeats 1000000
set_option maxRecDepth 100000

/- Shallow embedding of src/index.js (whatsapp-vcf-bot): the command
   interpreter and vCard encoder, translated function by function.
   Strings are Lean `String` (a list of characters); the JS string
   operations used by the source (trim, split, startsWith, slice,
   toUpperCase, replace, join) are modelled by the `js*` helpers below. -/

/-- Whitespace characters removed by `String.prototype.trim` (ASCII subset). -/
def isWsChar (c : Char) : Bool :=
  c == ' ' || c == '\t' || c == '\n' || c == '\r' || c == '\x0b' || c == '\x0c'

/-- JS `s.trim()`: drop leading and trailing whitespace. -/
def jsTrim (s : String) : String :=
  ⟨((s.data.dropWhile isWsChar).reverse.dropWhile isWsChar).reverse⟩

/-- JS `s.toUpperCase()` restricted to ASCII, which is all the source compares. -/
def jsToUpper (s : String) : String := ⟨s.data.map Char.toUpper⟩

/-- Prefix test on character lists (JS `String.prototype.startsWith`). -/
def isPrefixL : List Char → List Char → Bool
  | [], _ => true
  | _ :: _, [] => false
  | a :: as, b :: bs => a == b && isPrefixL as bs

/-- JS `s.startsWith(t)`. -/
def jsStartsWith (t s : String) : Bool := isPrefixL t.data s.data

/-- JS `s.split(sep)` for a single-character separator predicate:
there is always at least one (possibly empty) piece. -/
def splitOnP (p : Char → Bool) : List Char → List (List Char)
  | [] => [[]]
  | c :: cs =>
    if p c then [] :: splitOnP p cs
    else
      match splitOnP p cs with
      | [] => [[c]]
      | t :: ts => (c :: t) :: ts

/-- Remove one trailing carriage return, the `\r` consumed by `/\r?\n/`. -/
def stripCR : List Char → List Char
  | [] => []
  | [c] => if c = '\r' then [] else [c]
  | c :: cs => c :: stripCR cs

/-- Apply `stripCR` to every piece except the last: only a `\r` that
directly precedes a `\n` separator is consumed by `/\r?\n/`. -/
def stripPieces : List (List Char) → List (List Char)
  | [] => []
  | [a] => [a]
  | a :: rest => stripCR a :: stripPieces rest

/-- JS `s.split(/\r?\n/)`: split on newlines, consuming a `\r` that
directly precedes each `\n`. -/
def splitLines (s : String) : List String :=
  (stripPieces (splitOnP (fun c => c == '\n') s.data)).map (fun l => (⟨l⟩ : String))

/-- JS `a || b` on strings: `a` when truthy (non-empty), else `b`. -/
def jsOr (a b : String) : String := if a = "" then b else a

/-- The one domain entity: a contact parsed from a `Name|Phone|Org|Email` line. -/
structure ContactRecord where
  name : String
  phone : String
  org : String
  email : String
deriving DecidableEq, Repr

/-- src/index.js, `parseContactLine` (lines 124-133): split on `|`, trim the
fields, require at least two fields, default an empty name to "Unknown". -/
def parseContactLine (line : String) : Option ContactRecord :=
  let parts := (splitOnP (fun c => c == '|') line.data).map (fun w => jsTrim ⟨w⟩)
  if parts.length < 2 then none
  else some {
    name := jsOr (parts.getD 0 "") "Unknown"
    phone := parts.getD 1 ""
    org := parts.getD 2 ""
    email := parts.getD 3 "" }

/-- src/index.js, `sanitizePhoneForVcard` (lines 135-138):
`phone.replace(/[^\d+]/g, "")` keeps exactly the ASCII digits and `+`. -/
def sanitizePhoneForVcard (phone : String) : String :=
  ⟨phone.data.filter (fun c => c.isDigit || c == '+')⟩

/-- Character-list body of `name.replace(/,/g, "\\,")`. -/
def escCommasL : List Char → List Char
  | [] => []
  | c :: cs => (if c == ',' then ['\\', ','] else [c]) ++ escCommasL cs

/-- src/index.js, line 142: `(name || "").replace(/,/g, "\\,")`. -/
def escapeCommas (s : String) : String := ⟨escCommasL s.data⟩

/-- JS `Array.prototype.join(sep)`. -/
def jsJoin (sep : String) : List String → String
  | [] => ""
  | [a] => a
  | a :: rest => a ++ sep ++ jsJoin sep rest

/-- src/index.js, `buildVCardSingle` (lines 140-153): the `lines` array as
built by the sequence of conditional pushes (`if (org) ...` is the JS
truthiness test, i.e. non-emptiness for strings). -/
def vcardLines (r : ContactRecord) : List String :=
  ["BEGIN:VCARD", "VERSION:3.0",
   "FN:" ++ escapeCommas r.name,
   "N:" ++ escapeCommas r.name ++ ";;;;"]
  ++ (if r.org = "" then [] else ["ORG:" ++ r.org])
  ++ (if sanitizePhoneForVcard r.phone = "" then []
      else ["TEL;TYPE=CELL:" ++ sanitizePhoneForVcard r.phone])
  ++ (if r.email = "" then [] else ["EMAIL;TYPE=INTERNET:" ++ r.email])
  ++ ["END:VCARD"]

/-- src/index.js, line 154: `lines.join("\r\n") + "\r\n"`. -/
def buildVCardSingle (r : ContactRecord) : String :=
  jsJoin "\r\n" (vcardLines r) ++ "\r\n"

/-- src/index.js, `buildVCardMulti` (lines 157-159):
`contacts.map(c => buildVCardSingle(c)).join("\r\n")`. -/
def buildVCardMulti (contacts : List ContactRecord) : String :=
  jsJoin "\r\n" (contacts.map buildVCardSingle)

/-- Outcome of handling one inbound text message, named after the distinct
`sock.sendMessage` calls of the handler: the usage text (line 60), the
multi-mode instruction text (line 67), the parse-failure text (line 76), or
the `.vcf` document with its record count (lines 87-92). -/
inductive Response where
  | noAction : Response
  | usage : Response
  | multiInstr : Response
  | parseFail : Response
  | file : String → Nat → Response
deriving DecidableEq, Repr

/-- src/index.js, lines 72-73: split the payload into trimmed non-empty
lines, parse each, and keep the successes (`.filter(Boolean)`). -/
def linesToContacts (payload : String) : List ContactRecord :=
  (((splitLines payload).map jsTrim).filter (fun l => l != "")).filterMap parseContactLine

/-- src/index.js, lines 59-92: processing of the payload after the `!vcf`
trigger has been stripped and trimmed. -/
def processCommand (payload : String) : Response :=
  if payload = "" then Response.usage
  else if jsToUpper payload = "MULTI" then Response.multiInstr
  else if linesToContacts payload = [] then Response.parseFail
  else Response.file (buildVCardMulti (linesToContacts payload)) (linesToContacts payload).length

/-- src/index.js, lines 52-96: trim the inbound text, ignore empty text,
and dispatch on the `!vcf` trigger (`text.slice(4).trim()` is the payload). -/
def handleText (text : String) : Response :=
  if jsTrim text = "" then Response.noAction
  else if jsStartsWith "!vcf" (jsTrim text) then
    processCommand (jsTrim ⟨(jsTrim text).data.drop 4⟩)
  else Response.noAction

/-- Capture group `(\+?\d+)` tried directly after the matched `:`. -/
def telCapture : List Char → Option (List Char)
  | '+' :: d :: rest =>
    if d.isDigit then some ('+' :: d :: rest.takeWhile Char.isDigit) else none
  | d :: rest => if d.isDigit then some (d :: rest.takeWhile Char.isDigit) else none
  | [] => none

/-- After `TEL`, the regex `[^:]*:` consumes everything up to the first `:`. -/
def telAfter : List Char → Option (List Char)
  | [] => none
  | ':' :: rest => telCapture rest
  | _ :: rest => telAfter rest

/-- Attempt to match `/TEL[^:]*:(\+?\d+)/i` at the head of the list. -/
def telAt : List Char → Option (List Char)
  | t :: e :: l :: rest =>
    if t.toLower == 't' && e.toLower == 'e' && l.toLower == 'l' then telAfter rest
    else none
  | _ => none

/-- Leftmost match: try the pattern at every position, left to right. -/
def findTel : List Char → Option (List Char)
  | [] => none
  | c :: cs =>
    match telAt (c :: cs) with
    | some r => some r
    | none => findTel cs

/-- src/index.js, `extractPhoneFromVcard` (lines 161-164):
`vcardText.match(/TEL[^:]*:(\+?\d+)/i)`, returning the capture or `""`. -/
def extractPhoneFromVcard (v : String) : String :=
  match findTel v.data with
  | some ds => ⟨ds⟩
  | none => ""

/-- Attempt to match `/FN:(.*)/` at the head of the list: the capture `.*`
runs to the next line terminator or the end of the string. -/
def fnAt : List Char → Option (List Char)
  | 'F' :: 'N' :: ':' :: rest => some (rest.takeWhile (fun c => !(c == '\n' || c == '\r')))
  | _ => none

/-- Leftmost match of `/FN:(.*)/`. -/
def findFN : List Char → Option (List Char)
  | [] => none
  | c :: cs =>
    match fnAt (c :: cs) with
    | some r => some r
    | none => findFN cs

/-- The fields of a forwarded contact-card payload that the handler reads
(src/index.js, lines 99-104): `displayName`, `vcard`, `jid`. -/
structure ContactMessage where
  displayName : Option String
  vcard : Option String
  jid : Option String
deriving DecidableEq, Repr

/-- JS truthiness of an optional string field: present and non-empty. -/
def jsTruthyS : Option String → Bool
  | none => false
  | some s => s != ""

/-- src/index.js, line 102: `contact.vcard ? extractPhoneFromVcard(contact.vcard)
: (contact.jid || "").split("@")[0]`. -/
def contactPhone (c : ContactMessage) : String :=
  if jsTruthyS c.vcard then extractPhoneFromVcard ((c.vcard).getD "")
  else ⟨(splitOnP (fun ch => ch == '@') ((c.jid).getD "").data).getD 0 []⟩

/-- src/index.js, line 103: `contact.displayName ||
contact.vcard?.match(/FN:(.*)/)?.[1] || "contact"`. -/
def contactName (c : ContactMessage) : String :=
  if jsTruthyS c.displayName then (c.displayName).getD ""
  else
    match c.vcard with
    | none => "contact"
    | some v =>
      match findFN v.data with
      | some ds => if ds = [] then "contact" else ⟨ds⟩
      | none => "contact"

/-- src/index.js, lines 99-116: the forwarded-contact branch builds a single
record with empty organization and email and sends it as a `.vcf` document. -/
def handleContact (c : ContactMessage) : Response :=
  Response.file
    (buildVCardSingle { name := contactName c, phone := contactPhone c, org := "", email := "" }) 1

/-- Directives of the contact branch: one file when a contact card is
attached to the message, none otherwise. -/
def contactPart : Option ContactMessage → List Response
  | none => []
  | some c => [handleContact c]

/-- src/index.js, lines 47-121: the full message handler, as the list of
directives it emits. The empty-text guard `if (!text) return;` at line 54
runs before everything else, so the contact branch (lines 99-116) is
reached only when the trimmed text is non-empty. The `!vcf` branch returns
early on its usage (line 61), multi-instruction (line 68) and parse-failure
(line 77) paths, but its file path does not return and falls through to
the contact branch. -/
def handleMessage (text : String) (contact : Option ContactMessage) : List Response :=
  if jsTrim text = "" then []
  else if jsStartsWith "!vcf" (jsTrim text) then
    match processCommand (jsTrim ⟨(jsTrim text).data.drop 4⟩) with
    | Response.file content n => Response.file content n :: contactPart contact
    | r => [r]
  else contactPart contact

/-- Value of the first line of a rendered vCard block that starts with the
given tag (used to state the round-trip claim about re-extracting fields). -/
def vcardFieldValue (tag block : String) : String :=
  match (splitLines block).find? (fun l => isPrefixL tag.data l.data) with
  | some l => ⟨l.data.drop tag.data.length⟩
  | none => ""

/-- Number of occurrences of a given string in a list of lines. -/
def countEq (a : String) : List String → Nat
  | [] => 0
  | b :: t => (if b = a then 1 else 0) + countEq a t

/- Helper lemmas about the string model. -/

/-- Strings with equal character lists are equal. -/
theorem strExt {a b : String} (h : a.data = b.data) : a = b := by
  cases a; cases b; exact congrArg String.mk h

/-- Character list of an appended string. -/
theorem dataAppend (a b : String) : (a ++ b).data = a.data ++ b.data := rfl

/-- Character list of the empty string. -/
theorem dataEmpty : ("" : String).data = [] := rfl

/-- Rebuilding a string from its character list is the identity. -/
theorem mkData (s : String) : (⟨s.data⟩ : String) = s := rfl

/-- String append is associative. -/
theorem strAssoc (a b c : String) : (a ++ b) ++ c = a ++ (b ++ c) := by
  apply strExt; simp [dataAppend, List.append_assoc]

/-- Unfolding equation of `splitOnP` on a cons cell. -/
theorem splitOnP_cons (p : Char → Bool) (c : Char) (cs : List Char) :
    splitOnP p (c :: cs) =
      if p c then [] :: splitOnP p cs
      else
        match splitOnP p cs with
        | [] => [[c]]
        | t :: ts => (c :: t) :: ts := rfl

/-- A split never produces an empty list of pieces. -/
theorem splitOnP_ne_nil (p : Char → Bool) (l : List Char) : splitOnP p l ≠ [] := by
  induction l with
  | nil => simp [splitOnP]
  | cons c cs ih =>
    unfold splitOnP
    split
    · simp
    · rcases h : splitOnP p cs with _ | ⟨t, ts⟩
      · simp [h]
      · simp [h]

/-- Splitting a separator-free list yields that list as its only piece. -/
theorem splitOnP_eq_single (p : Char → Bool) (l : List Char)
    (h : ∀ c ∈ l, p c = false) : splitOnP p l = [l] := by
  induction l with
  | nil => rfl
  | cons c cs ih =>
    unfold splitOnP
    rw [if_neg (by simp [h c (by simp)])]
    rw [ih (fun x hx => h x (by simp [hx]))]

/-- Splitting at the first separator after a separator-free chunk. -/
theorem splitOnP_append (p : Char → Bool) (l r : List Char) (c : Char)
    (hl : ∀ x ∈ l, p x = false) (hc : p c = true) :
    splitOnP p (l ++ c :: r) = l :: splitOnP p r := by
  induction l with
  | nil => simp [splitOnP, hc]
  | cons a t ih =>
    have ha : p a = false := hl a (by simp)
    have ht : ∀ x ∈ t, p x = false := fun x hx => hl x (by simp [hx])
    simp only [List.cons_append]
    rw [splitOnP_cons, if_neg (by simp [ha]), ih ht]

/-- Unfolding equation of `stripCR` on a list of length at least two. -/
theorem stripCR_cons2 (c d : Char) (ds : List Char) :
    stripCR (c :: d :: ds) = c :: stripCR (d :: ds) := rfl

/-- `stripCR` is the identity on lists without a carriage return. -/
theorem stripCR_noCR (l : List Char) (h : ∀ c ∈ l, c ≠ '\r') : stripCR l = l := by
  induction l with
  | nil => rfl
  | cons c cs ih =>
    cases cs with
    | nil =>
      have hc : c ≠ '\r' := h c (by simp)
      show (if c = '\r' then [] else [c]) = [c]
      rw [if_neg hc]
    | cons d ds =>
      rw [stripCR_cons2, ih (fun x hx => h x (List.mem_cons_of_mem _ hx))]

/-- `stripCR` removes exactly one trailing carriage return. -/
theorem stripCR_append_cr (l : List Char) : stripCR (l ++ ['\r']) = l := by
  induction l with
  | nil => rfl
  | cons c cs ih =>
    rcases h : cs ++ ['\r'] with _ | ⟨d, ds⟩
    · simp at h
    · rw [List.cons_append, h, stripCR_cons2, ← h, ih]

/-- `stripPieces` on a cons with a non-empty tail. -/
theorem stripPieces_cons (x : List Char) (xs : List (List Char)) (h : xs ≠ []) :
    stripPieces (x :: xs) = stripCR x :: stripPieces xs := by
  cases xs with
  | nil => exact absurd rfl h
  | cons a t => rfl

/-- Characters surviving `dropWhile` come from the original list. -/
theorem mem_dropWhile {c : Char} {p : Char → Bool} {l : List Char}
    (h : c ∈ l.dropWhile p) : c ∈ l := by
  induction l with
  | nil => simp at h
  | cons a t ih =>
    by_cases hp : p a
    · rw [List.dropWhile_cons_of_pos hp] at h
      exact List.mem_cons_of_mem _ (ih h)
    · rw [List.dropWhile_cons_of_neg hp] at h
      exact h

/-- Characters of a trimmed string come from the original string. -/
theorem mem_jsTrim {c : Char} {s : String} (h : c ∈ (jsTrim s).data) : c ∈ s.data := by
  unfold jsTrim at h
  rw [mkData] at h
  simp only [List.mem_reverse] at h
  have h2 := mem_dropWhile h
  rw [List.mem_reverse] at h2
  exact mem_dropWhile h2

/-- Characters of a comma-escaped list are backslashes or original characters. -/
theorem mem_escCommasL {c : Char} {l : List Char} (h : c ∈ escCommasL l) :
    c = '\\' ∨ c ∈ l := by
  induction l with
  | nil => exact absurd h (by simp [escCommasL])
  | cons a t ih =>
    unfold escCommasL at h
    rw [List.mem_append] at h
    rcases h with h | h
    · by_cases ha : a = ','
      · simp [ha] at h
        rcases h with h | h
        · exact Or.inl h
        · exact Or.inr (by simp [h, ha])
      · simp [ha] at h
        exact Or.inr (by simp [h])
    · rcases ih h with h | h
      · exact Or.inl h
      · exact Or.inr (List.mem_cons_of_mem _ h)

/-- Characters of a sanitized phone are digits or `+`. -/
theorem mem_sanitize {c : Char} {s : String} (h : c ∈ (sanitizePhoneForVcard s).data) :
    c.isDigit = true ∨ c = '+' := by
  unfold sanitizePhoneForVcard at h
  rw [mkData] at h
  have := (List.mem_filter.mp h).2
  simp only [Bool.or_eq_true, beq_iff_eq] at this
  exact this

/-- Comma-escaping is the identity on comma-free lists. -/
theorem escCommasL_id (l : List Char) (h : ∀ c ∈ l, c ≠ ',') : escCommasL l = l := by
  induction l with
  | nil => rfl
  | cons a t ih =>
    unfold escCommasL
    rw [if_neg (by simp [h a (by simp)])]
    rw [ih (fun x hx => h x (List.mem_cons_of_mem _ hx))]
    rfl

/-- `jsJoin` on a cons with a non-empty tail inserts one separator. -/
theorem jsJoin_cons (sep a : String) (l : List String) (h : l ≠ []) :
    jsJoin sep (a :: l) = a ++ sep ++ jsJoin sep l := by
  cases l with
  | nil => exact absurd rfl h
  | cons b t => rfl

/-- Length of a `filterMap` counts the elements mapped to `some`. -/
theorem length_filterMap_countP {α β : Type} (f : α → Option β) (l : List α) :
    (l.filterMap f).length = l.countP (fun x => (f x).isSome) := by
  induction l with
  | nil => rfl
  | cons a t ih =>
    rw [List.filterMap_cons, List.countP_cons]
    rcases h : f a with _ | b
    · simp [h, ih]
    · simp [h, ih]

/-- A line parses to no record when it contains no pipe character. -/
theorem parse_noPipe (s : String) (h : ∀ c ∈ s.data, c ≠ '|') :
    parseContactLine s = none := by
  unfold parseContactLine
  rw [splitOnP_eq_single _ _ (fun c hc => by simp [h c hc])]
  simp

/-- Splitting on `/\r?\n/` after a newline-free, CR-free first line. -/
theorem splitLines_cons (f rest : String) (h : ∀ c ∈ f.data, c ≠ '\n' ∧ c ≠ '\r') :
    splitLines (f ++ "\n" ++ rest) = f :: splitLines rest := by
  unfold splitLines
  have hd : (f ++ "\n" ++ rest).data = f.data ++ '\n' :: rest.data := by
    simp [dataAppend, List.append_assoc]
  rw [hd, splitOnP_append _ _ _ _ (fun x hx => by simp [(h x hx).1]) (by simp)]
  rw [stripPieces_cons _ _ (splitOnP_ne_nil _ _)]
  rw [stripCR_noCR _ (fun c hc => (h c hc).2)]
  rw [List.map_cons, mkData]

/-- Splitting the rendered join of CRLF-free lines recovers the lines,
plus one empty final piece produced by the trailing CRLF. -/
theorem blocks_split (L : List String) (hne : L ≠ [])
    (h : ∀ l ∈ L, ∀ c ∈ l.data, c ≠ '\n' ∧ c ≠ '\r') :
    splitLines (jsJoin "\r\n" L ++ "\r\n") = L ++ [""] := by
  induction L with
  | nil => exact absurd rfl hne
  | cons a t ih =>
    have ha : ∀ c ∈ a.data, c ≠ '\n' ∧ c ≠ '\r' := h a (by simp)
    cases t with
    | nil =>
      unfold splitLines
      have hd : (jsJoin "\r\n" [a] ++ "\r\n").data = (a.data ++ ['\r']) ++ '\n' :: [] := by
        simp [jsJoin, dataAppend, List.append_assoc]
      rw [hd, splitOnP_append _ _ _ _
        (fun x hx => by
          rcases List.mem_append.mp hx with hx | hx
          · simp [(ha x hx).1]
          · simp at hx; simp [hx]) (by simp)]
      rw [stripPieces_cons _ _ (splitOnP_ne_nil _ _), stripCR_append_cr]
      simp [splitOnP, stripPieces, mkData]
    | cons b t2 =>
      have hd : (jsJoin "\r\n" (a :: b :: t2) ++ "\r\n").data =
          (a.data ++ ['\r']) ++ '\n' :: (jsJoin "\r\n" (b :: t2) ++ "\r\n").data := by
        rw [jsJoin_cons _ _ _ (by simp)]
        simp [dataAppend, List.append_assoc]
      unfold splitLines
      rw [hd, splitOnP_append _ _ _ _
        (fun x hx => by
          rcases List.mem_append.mp hx with hx | hx
          · simp [(ha x hx).1]
          · simp at hx; simp [hx]) (by simp)]
      rw [stripPieces_cons _ _ (splitOnP_ne_nil _ _), stripCR_append_cr]
      rw [List.map_cons, mkData]
      have ih2 := ih (by simp) (fun l hl => h l (List.mem_cons_of_mem _ hl))
      unfold splitLines at ih2
      rw [ih2]
      rfl

theorem fieldVals (r : ContactRecord)
    (h : ∀ l ∈ vcardLines r, ∀ c ∈ l.data, c ≠ '\n' ∧ c ≠ '\r') :
    vcardFieldValue "FN:" (buildVCardSingle r) = escapeCommas r.name ∧
    vcardFieldValue "ORG:" (buildVCardSingle r) = r.org ∧
    vcardFieldValue "TEL;TYPE=CELL:" (buildVCardSingle r) = sanitizePhoneForVcard r.phone ∧
    vcardFieldValue "EMAIL;TYPE=INTERNET:" (buildVCardSingle r) = r.email := by
  have hs : splitLines (buildVCardSingle r) = vcardLines r ++ [""] := by
    unfold buildVCardSingle
    exact blocks_split _ (by simp [vcardLines]) h
  refine ⟨?_, ?_, ?_, ?_⟩ <;>
    (unfold vcardFieldValue; rw [hs]; unfold vcardLines;
     split_ifs with h1 h2 h3 h4 h5 h6 h7 <;>
       first
       | rfl
       | exact h1.symm
       | exact h2.symm
       | exact h3.symm
       | exact h4.symm
       | exact h5.symm
       | exact h6.symm
       | exact h7.symm)

theorem crlf_free_of_sanitize {c : Char} (h : c.isDigit = true ∨ c = '+') :
    c ≠ '\n' ∧ c ≠ '\r' := by
  rcases h with h | h
  · constructor <;> rintro rfl <;> simp at h
  · subst h; exact ⟨by decide, by decide⟩

theorem mem_ite_singleton {l x : String} {p : Prop} [Decidable p]
    (h : l ∈ (if p then ([] : List String) else [x])) : l = x := by
  split_ifs at h
  · simp at h
  · simpa using h

theorem noCRLF_vcardLines (r : ContactRecord)
    (hname : ∀ c ∈ r.name.data, c ≠ '\n' ∧ c ≠ '\r')
    (horg : ∀ c ∈ r.org.data, c ≠ '\n' ∧ c ≠ '\r')
    (hemail : ∀ c ∈ r.email.data, c ≠ '\n' ∧ c ≠ '\r') :
    ∀ l ∈ vcardLines r, ∀ c ∈ l.data, c ≠ '\n' ∧ c ≠ '\r' := by
  have hesc : ∀ c ∈ (escapeCommas r.name).data, c ≠ '\n' ∧ c ≠ '\r' := by
    intro c hc
    have hc2 : c ∈ escCommasL r.name.data := hc
    rcases mem_escCommasL hc2 with h | h
    · subst h; exact ⟨by decide, by decide⟩
    · exact hname c h
  intro l hl
  unfold vcardLines at hl
  rcases List.mem_append.mp hl with hl | hl
  · rcases List.mem_append.mp hl with hl | hl
    · rcases List.mem_append.mp hl with hl | hl
      · rcases List.mem_append.mp hl with hl | hl
        · simp only [List.mem_cons, List.not_mem_nil, or_false] at hl
          rcases hl with rfl | rfl | rfl | rfl
          · intro c hc
            exact (by decide : ∀ x ∈ ("BEGIN:VCARD" : String).data, x ≠ '\n' ∧ x ≠ '\r') c hc
          · intro c hc
            exact (by decide : ∀ x ∈ ("VERSION:3.0" : String).data, x ≠ '\n' ∧ x ≠ '\r') c hc
          · intro c hc
            rw [dataAppend] at hc
            rcases List.mem_append.mp hc with hc | hc
            · exact (by decide : ∀ x ∈ ("FN:" : String).data, x ≠ '\n' ∧ x ≠ '\r') c hc
            · exact hesc c hc
          · intro c hc
            rw [dataAppend, dataAppend] at hc
            rcases List.mem_append.mp hc with hc | hc
            · rcases List.mem_append.mp hc with hc | hc
              · exact (by decide : ∀ x ∈ ("N:" : String).data, x ≠ '\n' ∧ x ≠ '\r') c hc
              · exact hesc c hc
            · exact (by decide : ∀ x ∈ (";;;;" : String).data, x ≠ '\n' ∧ x ≠ '\r') c hc
        · have he := mem_ite_singleton hl
          subst he
          intro c hc
          rw [dataAppend] at hc
          rcases List.mem_append.mp hc with hc | hc
          · exact (by decide : ∀ x ∈ ("ORG:" : String).data, x ≠ '\n' ∧ x ≠ '\r') c hc
          · exact horg c hc
      · have he := mem_ite_singleton hl
        subst he
        intro c hc
        rw [dataAppend] at hc
        rcases List.mem_append.mp hc with hc | hc
        · exact (by decide : ∀ x ∈ ("TEL;TYPE=CELL:" : String).data, x ≠ '\n' ∧ x ≠ '\r') c hc
        · exact crlf_free_of_sanitize (mem_sanitize hc)
    · have he := mem_ite_singleton hl
      subst he
      intro c hc
      rw [dataAppend] at hc
      rcases List.mem_append.mp hc with hc | hc
      · exact (by decide :
          ∀ x ∈ ("EMAIL;TYPE=INTERNET:" : String).data, x ≠ '\n' ∧ x ≠ '\r') c hc
      · exact hemail c hc
  · simp only [List.mem_cons, List.not_mem_nil, or_false] at hl
    subst hl
    intro c hc
    exact (by decide : ∀ x ∈ ("END:VCARD" : String).data, x ≠ '\n' ∧ x ≠ '\r') c hc

/-- A string whose uppercasing is "MULTI" contains no newline, carriage
return, or pipe character. -/
theorem multi_chars (f : String) (h : jsToUpper f = "MULTI") :
    ∀ c ∈ f.data, c ≠ '\n' ∧ c ≠ '\r' ∧ c ≠ '|' := by
  intro c hc
  have hd : f.data.map Char.toUpper = ("MULTI" : String).data := congrArg String.data h
  have hm : Char.toUpper c ∈ ("MULTI" : String).data := by
    rw [← hd]; exact List.mem_map_of_mem _ hc
  refine ⟨?_, ?_, ?_⟩ <;> rintro rfl <;> revert hm <;> decide

theorem multi_ne_empty (f : String) (h : jsToUpper f = "MULTI") : f ≠ "" := by
  rintro rfl
  exact absurd h (by decide)

theorem multi_length (f : String) (h : jsToUpper f = "MULTI") : f.data.length = 5 := by
  have hd : f.data.map Char.toUpper = ("MULTI" : String).data := congrArg String.data h
  have := congrArg List.length hd
  simpa using this

theorem multi_line_append_ne_empty (f rest : String) :
    f ++ "\n" ++ rest ≠ "" := by
  intro he
  have := congrArg String.data he
  rw [dataAppend, dataAppend] at this
  simp at this

theorem multi_line_append_ne_multi (f rest : String) (h : jsToUpper f = "MULTI") :
    jsToUpper (f ++ "\n" ++ rest) ≠ "MULTI" := by
  intro he
  have h5 := multi_length _ he
  rw [dataAppend, dataAppend] at h5
  have hf5 := multi_length f h
  simp [hf5] at h5

/-- Prepending a line that uppercases to "MULTI" contributes no record. -/
theorem linesToContacts_multi (f rest : String) (h : jsToUpper f = "MULTI") :
    linesToContacts (f ++ "\n" ++ rest) = linesToContacts rest := by
  unfold linesToContacts
  rw [splitLines_cons f rest
    (fun c hc => ⟨(multi_chars f h c hc).1, (multi_chars f h c hc).2.1⟩)]
  rw [List.map_cons, List.filter_cons]
  by_cases hf : jsTrim f = ""
  · simp [hf]
  · rw [if_pos (by simpa using hf)]
    rw [List.filterMap_cons]
    rw [parse_noPipe _ (fun c hc => (multi_chars f h c (mem_jsTrim hc)).2.2)]

theorem countEq_cons (a b : String) (t : List String) :
    countEq a (b :: t) = (if b = a then 1 else 0) + countEq a t := rfl

theorem countEq_append (a : String) (l m : List String) :
    countEq a (l ++ m) = countEq a l + countEq a m := by
  induction l with
  | nil => simp [countEq]
  | cons b t ih =>
    rw [List.cons_append, countEq_cons, countEq_cons, ih]
    omega

/-- Every rendered block contains the BEGIN marker exactly once. -/
theorem count_begin (r : ContactRecord) : countEq "BEGIN:VCARD" (vcardLines r) = 1 := by
  unfold vcardLines
  split_ifs <;> rfl

/-- Every rendered block contains the END marker exactly once. -/
theorem count_end (r : ContactRecord) : countEq "END:VCARD" (vcardLines r) = 1 := by
  unfold vcardLines
  split_ifs <;> rfl

theorem bvm_cons (a : ContactRecord) (t : List ContactRecord) (h : t ≠ []) :
    buildVCardMulti (a :: t) = buildVCardSingle a ++ "\r\n" ++ buildVCardMulti t := by
  unfold buildVCardMulti
  rw [List.map_cons, jsJoin_cons _ _ _ (by simpa using h)]

theorem bvm_append (cs ds : List ContactRecord) (hcs : cs ≠ []) (hds : ds ≠ []) :
    buildVCardMulti (cs ++ ds) = buildVCardMulti cs ++ "\r\n" ++ buildVCardMulti ds := by
  induction cs with
  | nil => exact absurd rfl hcs
  | cons a t ih =>
    cases t with
    | nil =>
      rw [List.singleton_append, bvm_cons a ds hds]
      rfl
    | cons b t2 =>
      rw [List.cons_append, bvm_cons a ((b :: t2) ++ ds) (by simp),
        ih (by simp), bvm_cons a (b :: t2) (by simp)]
      simp only [strAssoc]

/-- C4: `buildVCardSingle` emits fields one per line, each line terminated
with CRLF, in exactly the order BEGIN:VCARD, VERSION:3.0, FN, N, then ORG
only if the organization is non-empty, then TEL only if the sanitized phone
is non-empty, then EMAIL only if the email is non-empty, then END:VCARD. -/
theorem claim_C4_thm (r : ContactRecord) :
    buildVCardSingle r =
      "BEGIN:VCARD" ++ "\r\n" ++ "VERSION:3.0" ++ "\r\n" ++
      "FN:" ++ escapeCommas r.name ++ "\r\n" ++
      "N:" ++ escapeCommas r.name ++ ";;;;" ++ "\r\n" ++
      (if r.org = "" then "" else "ORG:" ++ r.org ++ "\r\n") ++
      (if sanitizePhoneForVcard r.phone = "" then ""
       else "TEL;TYPE=CELL:" ++ sanitizePhoneForVcard r.phone ++ "\r\n") ++
      (if r.email = "" then "" else "EMAIL;TYPE=INTERNET:" ++ r.email ++ "\r\n") ++
      "END:VCARD" ++ "\r\n" := by
  unfold buildVCardSingle vcardLines
  split_ifs <;> (apply strExt; simp [jsJoin, dataAppend, dataEmpty, List.append_assoc])

/-- C5: `sanitizePhoneForVcard` removes exactly the characters that are not
ASCII digits and not `+`, preserving the order of the kept characters;
"+237 (699) 000-000" sanitizes to "+237699000000", and when the result is
empty the encoder emits no TEL line at all. -/
theorem claim_C5_thm :
    (∀ p : String,
      (sanitizePhoneForVcard p).data = p.data.filter (fun c => c.isDigit || c == '+')) ∧
    sanitizePhoneForVcard "+237 (699) 000-000" = "+237699000000" ∧
    (∀ r : ContactRecord, sanitizePhoneForVcard r.phone = "" →
      ((vcardLines r).all (fun l => !jsStartsWith "TEL" l)) = true) := by
  refine ⟨fun p => rfl, by decide, fun r h => ?_⟩
  unfold vcardLines
  rw [h]
  split_ifs <;> first | rfl | simp_all

/-- C9: name escaping replaces every literal comma with backslash-comma and
performs no other escaping: comma-free names (semicolons and backslashes
included) pass through unchanged, and "Doe, John" encodes as the line
`FN:Doe\, John`. -/
theorem claim_C9_thm :
    (∀ s : String, (∀ c ∈ s.data, c ≠ ',') → escapeCommas s = s) ∧
    escapeCommas ";back\\slash;" = ";back\\slash;" ∧
    escapeCommas "Doe, John" = "Doe\\, John" ∧
    ("FN:" ++ escapeCommas "Doe, John") = "FN:Doe\\, John" ∧
    "FN:Doe\\, John" ∈ vcardLines ⟨"Doe, John", "", "", ""⟩ := by
  refine ⟨fun s h => ?_, by decide, by decide, by decide, by decide⟩
  apply strExt
  show escCommasL s.data = s.data
  exact escCommasL_id _ h

/-- C7: a ContactRecord is constructed from a line if and only if splitting
on `|` yields at least 2 fields, and a constructed record whose first
(trimmed) field is empty gets the name "Unknown". -/
theorem claim_C7_thm (l : String) :
    ((parseContactLine l).isSome ↔ 2 ≤ (splitOnP (fun c => c == '|') l.data).length) ∧
    (∀ r : ContactRecord, parseContactLine l = some r →
      r.name = (if jsTrim ⟨(splitOnP (fun c => c == '|') l.data).getD 0 []⟩ = "" then "Unknown"
                else jsTrim ⟨(splitOnP (fun c => c == '|') l.data).getD 0 []⟩)) := by
  constructor
  · simp only [parseContactLine, List.length_map]
    split_ifs with h
    · simp
      omega
    · simp
      omega
  · intro r hr
    rcases hsplit : splitOnP (fun c => c == '|') l.data with _ | ⟨a, t⟩
    · exact absurd hsplit (splitOnP_ne_nil _ _)
    · simp only [parseContactLine, hsplit, List.map_cons] at hr
      by_cases hlen : (jsTrim ⟨a⟩ :: t.map (fun w => jsTrim ⟨w⟩)).length < 2
      · rw [if_pos hlen] at hr
        cases hr
      · rw [if_neg hlen] at hr
        have hinj := Option.some.inj hr
        rw [← hinj]
        rfl

/-- Witness for C7: the line "|x" parses, and its record's name defaults to
"Unknown". -/
theorem claim_C7_wit :
    ((parseContactLine "|x").isSome ↔
      2 ≤ (splitOnP (fun c => c == '|') ("|x" : String).data).length) ∧
    (⟨"Unknown", "x", "", ""⟩ : ContactRecord).name =
      (if jsTrim ⟨(splitOnP (fun c => c == '|') ("|x" : String).data).getD 0 []⟩ = ""
       then "Unknown"
       else jsTrim ⟨(splitOnP (fun c => c == '|') ("|x" : String).data).getD 0 []⟩) :=
  ⟨(claim_C7_thm "|x").1, (claim_C7_thm "|x").2 ⟨"Unknown", "x", "", ""⟩ (by decide)⟩

/-- C10: the command trigger is a plain prefix test with no separator
required: every trimmed text starting with "!vcf" is processed with payload
equal to the trimmed remainder after those four characters, and
"!vcfJohn|5" yields a one-record file-delivery directive. -/
theorem claim_C10_thm :
    (∀ t : String, jsStartsWith "!vcf" (jsTrim t) = true →
      handleText t = processCommand (jsTrim ⟨(jsTrim t).data.drop 4⟩)) ∧
    handleText "!vcfJohn|5" = Response.file (buildVCardSingle ⟨"John", "5", "", ""⟩) 1 := by
  constructor
  · intro t h
    have hne : jsTrim t ≠ "" := by
      intro he
      rw [he] at h
      exact absurd h (by decide)
    unfold handleText
    rw [if_neg hne, if_pos h]
  · decide

/-- Witness for C10: "!vcfJohn|5" is handled as a command with payload
"John|5". -/
theorem claim_C10_wit : handleText "!vcfJohn|5" = processCommand "John|5" := by
  have h := claim_C10_thm.1 "!vcfJohn|5" (by decide)
  rw [h]
  exact congrArg processCommand (by decide)

/-- Counterexample for C1: a message carrying only a contact card has empty
text, so the handler returns at the empty-text guard and emits no directive
at all, against the claim's "for every inbound message carrying a
contact-card payload ... produces a single-record file-delivery directive";
and independently, for that payload (an embedded vCard with no TEL line and
identifier "1234@s.whatsapp.net") the code's phone is "", not the claimed
fallback "1234" from the identifier. -/
theorem claim_C1_cex :
    handleMessage ""
      (some ⟨some "X", some "BEGIN:VCARD\nFN:X\nEND:VCARD", some "1234@s.whatsapp.net"⟩) =
      [] ∧
    (∀ content : String, ∀ n : Nat, ([] : List Response) ≠ [Response.file content n]) ∧
    contactPhone
      ⟨some "X", some "BEGIN:VCARD\nFN:X\nEND:VCARD", some "1234@s.whatsapp.net"⟩ = "" ∧
    (⟨(splitOnP (fun ch => ch == '@')
        ("1234@s.whatsapp.net" : String).data).getD 0 []⟩ : String) = "1234" ∧
    ("1234" : String) ≠ "" :=
  ⟨by decide, fun content n => by simp, by decide, by decide, by decide⟩

/-- C1 (amended): the contact branch runs only behind the handler's
empty-text guard: a message whose trimmed text is empty — in particular a
message carrying only a contact card and no text — produces no directive
at all; when the trimmed text is non-empty (and is not a `!vcf` command),
a message carrying a contact card produces exactly one single-record
file-delivery directive with the extracted name and phone and empty
organization and email, where the phone is derived in two steps, not
three: when the embedded vCard text is present (and non-empty) the phone
is the TEL-pattern extraction from it, possibly empty, with no further
fallback; only when the vCard is absent is the phone the part of the
identifier before the first "@". -/
theorem claim_C1_thm (text : String) (c : ContactMessage) :
    (jsTrim text = "" → handleMessage text (some c) = []) ∧
    (jsTrim text ≠ "" → jsStartsWith "!vcf" (jsTrim text) = false →
      handleMessage text (some c) =
        [Response.file (buildVCardSingle ⟨contactName c, contactPhone c, "", ""⟩) 1]) ∧
    (jsTruthyS c.vcard = true →
      contactPhone c = extractPhoneFromVcard ((c.vcard).getD "")) ∧
    (jsTruthyS c.vcard = false →
      contactPhone c =
        ⟨(splitOnP (fun ch => ch == '@') ((c.jid).getD "").data).getD 0 []⟩) := by
  refine ⟨fun h => ?_, fun h1 h2 => ?_, fun h => ?_, fun h => ?_⟩
  · unfold handleMessage
    rw [if_pos h]
  · unfold handleMessage
    rw [if_neg h1, if_neg (by simp [h2])]
    rfl
  · unfold contactPhone
    rw [if_pos h]
  · unfold contactPhone
    rw [if_neg (by simp [h])]

/-- Witness for C1: a contact card accompanying the non-command text "hi"
yields exactly one file directive, and a contact with no vCard falls back
to the identifier prefix "123". -/
theorem claim_C1_wit :
    handleMessage "hi" (some ⟨some "Bob", none, some "123@s.whatsapp.net"⟩) =
      [Response.file (buildVCardSingle ⟨"Bob", "123", "", ""⟩) 1] ∧
    handleMessage "" (some ⟨some "Bob", none, some "123@s.whatsapp.net"⟩) = [] ∧
    contactPhone ⟨some "Bob", none, some "123@s.whatsapp.net"⟩ = "123" := by
  have h := claim_C1_thm "hi" ⟨some "Bob", none, some "123@s.whatsapp.net"⟩
  have h0 := claim_C1_thm "" ⟨some "Bob", none, some "123@s.whatsapp.net"⟩
  refine ⟨?_, h0.1 (by decide), ?_⟩
  · rw [h.2.1 (by decide) (by decide)]
    decide
  · rw [h.2.2.2 (by decide)]
    decide

/-- C6: parsing never fails on malformed per-line input: a line with fewer
than 2 pipe-delimited fields yields no record, the record count of a batch
equals the number of well-formed lines, a non-empty record set produces the
file-delivery directive, and only a wholly empty result produces the
parse-failure response. -/
theorem claim_C6_thm (payload : String) (h1 : payload ≠ "")
    (h2 : jsToUpper payload ≠ "MULTI") :
    (∀ l : String,
      (splitOnP (fun c => c == '|') l.data).length < 2 → parseContactLine l = none) ∧
    (linesToContacts payload).length =
      (((splitLines payload).map jsTrim).filter (fun l => l != "")).countP
        (fun l => (parseContactLine l).isSome) ∧
    (linesToContacts payload ≠ [] →
      processCommand payload =
        Response.file (buildVCardMulti (linesToContacts payload))
          (linesToContacts payload).length) ∧
    (linesToContacts payload = [] → processCommand payload = Response.parseFail) := by
  refine ⟨?_, ?_, ?_, ?_⟩
  · intro l hl
    simp only [parseContactLine, List.length_map]
    rw [if_pos hl]
  · exact length_filterMap_countP _ _
  · intro h3
    unfold processCommand
    rw [if_neg h1, if_neg h2, if_neg h3]
  · intro h3
    unfold processCommand
    rw [if_neg h1, if_neg h2, if_pos h3]

/-- Witness for C6: the batch "a|1\nbad" produces a one-record file and
the malformed line "bad" yields no record. -/
theorem claim_C6_wit :
    processCommand "a|1\nbad" = Response.file (buildVCardMulti [⟨"a", "1", "", ""⟩]) 1 ∧
    parseContactLine "bad" = none := by
  have h := claim_C6_thm "a|1\nbad" (by decide) (by decide)
  have e : linesToContacts "a|1\nbad" = [⟨"a", "1", "", ""⟩] := by decide
  constructor
  · have h3 := h.2.2.1 (by decide)
    rw [h3, e]
    rfl
  · exact h.1 "bad" (by decide)

/-- Witness for C5: a record whose phone sanitizes to the empty string
produces no TEL line. -/
theorem claim_C5_wit :
    ((vcardLines ⟨"A", "abc", "", ""⟩).all (fun l => !jsStartsWith "TEL" l)) = true :=
  claim_C5_thm.2.2 ⟨"A", "abc", "", ""⟩ (by decide)

/-- Witness for C9: a comma-free name passes through escaping unchanged. -/
theorem claim_C9_wit : escapeCommas "John Doe" = "John Doe" :=
  claim_C9_thm.1 "John Doe" (by decide)

/-- C8: `buildVCardMulti` equals the single-record encodings joined with a
single CRLF separator, preserving input order with no deduplication, and a
sequence of n records emits exactly n BEGIN:VCARD and n END:VCARD lines. -/
theorem claim_C8_thm :
    (∀ cs : List ContactRecord,
      countEq "BEGIN:VCARD" ((cs.map vcardLines).flatten) = cs.length ∧
      countEq "END:VCARD" ((cs.map vcardLines).flatten) = cs.length) ∧
    (∀ cs ds : List ContactRecord, cs ≠ [] → ds ≠ [] →
      buildVCardMulti (cs ++ ds) = buildVCardMulti cs ++ "\r\n" ++ buildVCardMulti ds) ∧
    (∀ cs : List ContactRecord, buildVCardMulti cs = jsJoin "\r\n" (cs.map buildVCardSingle)) := by
  refine ⟨?_, bvm_append, fun cs => rfl⟩
  intro cs
  induction cs with
  | nil => exact ⟨rfl, rfl⟩
  | cons a t ih =>
    obtain ⟨ih1, ih2⟩ := ih
    rw [List.map_cons, List.flatten_cons]
    refine ⟨?_, ?_⟩
    · rw [countEq_append, count_begin, ih1, List.length_cons]
      omega
    · rw [countEq_append, count_end, ih2, List.length_cons]
      omega
/-- Witness for C8: two concrete records concatenate with one CRLF
separator between their blocks. -/
theorem claim_C8_wit :
    buildVCardMulti ([⟨"A", "1", "", ""⟩] ++ [⟨"B", "2", "", ""⟩]) =
      buildVCardMulti [⟨"A", "1", "", ""⟩] ++ "\r\n" ++ buildVCardMulti [⟨"B", "2", "", ""⟩] :=
  claim_C8_thm.2.1 [⟨"A", "1", "", ""⟩] [⟨"B", "2", "", ""⟩] (by decide) (by decide)

/-- Counterexample for C2: when the remainder is exactly "multi" the
handler emits the multi-mode instruction response, not the claimed
parse-failure response. -/
theorem claim_C2_cex :
    handleText "!vcf multi" = Response.multiInstr ∧
    Response.multiInstr ≠ Response.parseFail := by
  exact ⟨by decide, by decide⟩

/-- C2 (amended): when the remainder's first line uppercases to "MULTI"
and is followed by further lines, the record set is exactly the records
parsed from the subsequent lines (the marker line contributes none), with
the parse-failure response exactly when those lines yield no records; but
when the remainder is exactly the single word "multi" the handler answers
with the multi-mode instruction instead; the spec's four-line example
yields exactly 2 records and two BEGIN/END block markers. -/
theorem claim_C2_thm :
    (∀ f rest : String, jsToUpper f = "MULTI" →
      processCommand f = Response.multiInstr ∧
      linesToContacts (f ++ "\n" ++ rest) = linesToContacts rest ∧
      (linesToContacts rest = [] →
        processCommand (f ++ "\n" ++ rest) = Response.parseFail) ∧
      (linesToContacts rest ≠ [] →
        processCommand (f ++ "\n" ++ rest) =
          Response.file (buildVCardMulti (linesToContacts rest))
            (linesToContacts rest).length)) ∧
    handleText "!vcf multi\nJohn Doe|+1555\nbadline\nJane|+1556" =
      Response.file
        (buildVCardMulti [⟨"John Doe", "+1555", "", ""⟩, ⟨"Jane", "+1556", "", ""⟩]) 2 ∧
    countEq "BEGIN:VCARD"
      (splitLines (buildVCardMulti
        [⟨"John Doe", "+1555", "", ""⟩, ⟨"Jane", "+1556", "", ""⟩])) = 2 ∧
    countEq "END:VCARD"
      (splitLines (buildVCardMulti
        [⟨"John Doe", "+1555", "", ""⟩, ⟨"Jane", "+1556", "", ""⟩])) = 2 := by
  refine ⟨?_, by decide, by decide, by decide⟩
  intro f rest h
  refine ⟨?_, linesToContacts_multi f rest h, fun h3 => ?_, fun h3 => ?_⟩
  · unfold processCommand
    rw [if_neg (multi_ne_empty f h), if_pos h]
  · unfold processCommand
    rw [if_neg (multi_line_append_ne_empty f rest),
      if_neg (multi_line_append_ne_multi f rest h),
      if_pos (by rw [linesToContacts_multi f rest h]; exact h3)]
  · unfold processCommand
    rw [if_neg (multi_line_append_ne_empty f rest),
      if_neg (multi_line_append_ne_multi f rest h),
      if_neg (by rw [linesToContacts_multi f rest h]; exact h3),
      linesToContacts_multi f rest h]

/-- Witness for C2: "multi" alone gives the instruction response, and
"multi\na|1" gives a one-record file. -/
theorem claim_C2_wit :
    processCommand "multi" = Response.multiInstr ∧
    processCommand ("multi" ++ "\n" ++ "a|1") =
      Response.file (buildVCardMulti [⟨"a", "1", "", ""⟩]) 1 := by
  have h := claim_C2_thm.1 "multi" "a|1" (by decide)
  have e : linesToContacts "a|1" = [⟨"a", "1", "", ""⟩] := by decide
  refine ⟨h.1, ?_⟩
  have h4 := h.2.2.2 (by decide)
  rw [h4, e]
  rfl

/-- Counterexample for C3: the line "|+15 55| Org |" parses (2+ fields),
but the re-extracted FN value is "Unknown" rather than the empty name, and
the re-extracted ORG value is the trimmed "Org" rather than " Org ". -/
theorem claim_C3_cex :
    (parseContactLine "|+15 55| Org |").map
      (fun r => (vcardFieldValue "FN:" (buildVCardSingle r),
                 vcardFieldValue "ORG:" (buildVCardSingle r))) =
      some ("Unknown", "Org") ∧
    ("Unknown" : String) ≠ escapeCommas "" ∧
    ("Org" : String) ≠ " Org " := by decide

/-- C3 (amended): for every line "N|P|O|E" with pipe-free, newline-free
fields, parsing then encoding yields a block from which the fields are
re-extracted after trimming: FN carries trim(N) (defaulted to "Unknown"
when empty) with comma-escaping, TEL carries the sanitization of trim(P),
ORG carries trim(O), and EMAIL carries trim(E). -/
theorem claim_C3_thm (n p o e : String)
    (hn : ∀ c ∈ n.data, c ≠ '|' ∧ c ≠ '\n' ∧ c ≠ '\r')
    (hp : ∀ c ∈ p.data, c ≠ '|' ∧ c ≠ '\n' ∧ c ≠ '\r')
    (ho : ∀ c ∈ o.data, c ≠ '|' ∧ c ≠ '\n' ∧ c ≠ '\r')
    (he : ∀ c ∈ e.data, c ≠ '|' ∧ c ≠ '\n' ∧ c ≠ '\r') :
    parseContactLine (n ++ "|" ++ p ++ "|" ++ o ++ "|" ++ e) =
      some ⟨jsOr (jsTrim n) "Unknown", jsTrim p, jsTrim o, jsTrim e⟩ ∧
    vcardFieldValue "FN:"
      (buildVCardSingle ⟨jsOr (jsTrim n) "Unknown", jsTrim p, jsTrim o, jsTrim e⟩) =
      escapeCommas (jsOr (jsTrim n) "Unknown") ∧
    vcardFieldValue "TEL;TYPE=CELL:"
      (buildVCardSingle ⟨jsOr (jsTrim n) "Unknown", jsTrim p, jsTrim o, jsTrim e⟩) =
      sanitizePhoneForVcard (jsTrim p) ∧
    vcardFieldValue "ORG:"
      (buildVCardSingle ⟨jsOr (jsTrim n) "Unknown", jsTrim p, jsTrim o, jsTrim e⟩) =
      jsTrim o ∧
    vcardFieldValue "EMAIL;TYPE=INTERNET:"
      (buildVCardSingle ⟨jsOr (jsTrim n) "Unknown", jsTrim p, jsTrim o, jsTrim e⟩) =
      jsTrim e := by
  have hdata : (n ++ "|" ++ p ++ "|" ++ o ++ "|" ++ e).data
      = n.data ++ '|' :: (p.data ++ '|' :: (o.data ++ '|' :: e.data)) := by
    simp [dataAppend, List.append_assoc]
  have hsplit : splitOnP (fun c => c == '|') (n ++ "|" ++ p ++ "|" ++ o ++ "|" ++ e).data
      = [n.data, p.data, o.data, e.data] := by
    rw [hdata]
    rw [splitOnP_append _ _ _ _ (fun x hx => by simp [(hn x hx).1]) (by simp)]
    rw [splitOnP_append _ _ _ _ (fun x hx => by simp [(hp x hx).1]) (by simp)]
    rw [splitOnP_append _ _ _ _ (fun x hx => by simp [(ho x hx).1]) (by simp)]
    rw [splitOnP_eq_single _ _ (fun x hx => by simp [(he x hx).1])]
  have hname : ∀ c ∈ (jsOr (jsTrim n) "Unknown").data, c ≠ '\n' ∧ c ≠ '\r' := by
    intro c hc
    unfold jsOr at hc
    split_ifs at hc
    · exact (by decide : ∀ x ∈ ("Unknown" : String).data, x ≠ '\n' ∧ x ≠ '\r') c hc
    · exact ⟨(hn c (mem_jsTrim hc)).2.1, (hn c (mem_jsTrim hc)).2.2⟩
  have hfv := fieldVals ⟨jsOr (jsTrim n) "Unknown", jsTrim p, jsTrim o, jsTrim e⟩
    (noCRLF_vcardLines _ hname
      (fun c hc => ⟨(ho c (mem_jsTrim hc)).2.1, (ho c (mem_jsTrim hc)).2.2⟩)
      (fun c hc => ⟨(he c (mem_jsTrim hc)).2.1, (he c (mem_jsTrim hc)).2.2⟩))
  refine ⟨?_, hfv.1, hfv.2.2.1, hfv.2.1, hfv.2.2.2⟩
  simp only [parseContactLine]
  rw [hsplit]
  rfl

/-- Witness for C3: the spec's example line round-trips to exactly its
four field values. -/
theorem claim_C3_wit :
    parseContactLine "Jane Roe|+237699111111|Org2|jane@org.com" =
      some ⟨"Jane Roe", "+237699111111", "Org2", "jane@org.com"⟩ ∧
    vcardFieldValue "FN:"
      (buildVCardSingle ⟨"Jane Roe", "+237699111111", "Org2", "jane@org.com"⟩) =
      "Jane Roe" ∧
    vcardFieldValue "TEL;TYPE=CELL:"
      (buildVCardSingle ⟨"Jane Roe", "+237699111111", "Org2", "jane@org.com"⟩) =
      "+237699111111" ∧
    vcardFieldValue "ORG:"
      (buildVCardSingle ⟨"Jane Roe", "+237699111111", "Org2", "jane@org.com"⟩) =
      "Org2" ∧
    vcardFieldValue "EMAIL;TYPE=INTERNET:"
      (buildVCardSingle ⟨"Jane Roe", "+237699111111", "Org2", "jane@org.com"⟩) =
      "jane@org.com" := by
  have h := claim_C3_thm "Jane Roe" "+237699111111" "Org2" "jane@org.com"
    (by decide) (by decide) (by decide) (by decide)
  exact h
